import Mathlib

/-!
# Verification of the Nuke-ONNX inference core

Shallow embedding of the tensor utilities, model handle, inference
processor and image-to-tensor adapter of the Nuke-ONNX repository,
together with proofs settling the specification claims.

Conventions of the embedding:
* C++ `float` values are modelled by `Flt`: a rational payload for finite
  values plus explicit infinity and NaN constructors.  All operations the
  claims exercise (comparison, `std::min`/`std::max`, NaN/Inf tests) are
  exact on this model; the only rounding operation in scope (the division
  inside `TensorProcessor.normalize`) is never evaluated by any claim.
* C++ `int`/`int64_t` are modelled by `Int` (no claim exercises overflow).
* `std::vector<T>` is modelled by `List T`; `std::vector::resize` is
  `listResize` (truncate or zero-extend, like value-initialisation).
* Functions that throw are modelled with `Except Err`.
-/

/-- Model of a C++ `float`: finite values carry an exact rational payload,
infinities carry a sign (`inf true` is `+inf`), plus NaN. -/
inductive Flt where
  | fin (q : ℚ)
  | inf (pos : Bool)
  | nan
  deriving DecidableEq

/-- `std::isnan`. -/
def Flt.isNaN : Flt → Bool
  | Flt.nan => true
  | _ => false

/-- `std::isinf`. -/
def Flt.isInf : Flt → Bool
  | Flt.inf _ => true
  | _ => false

/-- IEEE-754 `<` on floats: any comparison with NaN is false,
`-inf` is below every non-NaN value, `+inf` above. -/
def Flt.lt : Flt → Flt → Bool
  | Flt.nan, _ => false
  | _, Flt.nan => false
  | Flt.fin a, Flt.fin b => decide (a < b)
  | Flt.fin _, Flt.inf s => s
  | Flt.inf s, Flt.fin _ => !s
  | Flt.inf s, Flt.inf t => !s && t

/-- IEEE-754 `==` on floats: NaN is equal to nothing. -/
def Flt.eqF : Flt → Flt → Bool
  | Flt.nan, _ => false
  | _, Flt.nan => false
  | Flt.fin a, Flt.fin b => decide (a = b)
  | Flt.inf s, Flt.inf t => decide (s = t)
  | _, _ => false

/-- `std::min(a, b)` = `(b < a) ? b : a`. -/
def Flt.minF (a b : Flt) : Flt := if Flt.lt b a then b else a

/-- `std::max(a, b)` = `(a < b) ? b : a`. -/
def Flt.maxF (a b : Flt) : Flt := if Flt.lt a b then b else a

/-- Float addition, restricted to the finite cases the code reaches
(the `min + 1.0f` fallback of `findMinMaxMultiChannel`; rounding of the
sum is not modelled because no claim evaluates it on non-representable
values). -/
def Flt.addF : Flt → Flt → Flt
  | Flt.fin a, Flt.fin b => Flt.fin (a + b)
  | Flt.inf s, Flt.fin _ => Flt.inf s
  | Flt.fin _, Flt.inf s => Flt.inf s
  | Flt.inf s, Flt.inf t => if s = t then Flt.inf s else Flt.nan
  | _, _ => Flt.nan

/-- `std::numeric_limits<float>::max()` = `(2^24 - 1) * 2^104` exactly. -/
def floatMax : Flt := Flt.fin 340282346638528859811704183484516925440

/-- `std::numeric_limits<float>::lowest()` = `-FLT_MAX`. -/
def floatLowest : Flt := Flt.fin (-340282346638528859811704183484516925440)

/-- `TensorProcessor::findMinMax` (single-channel min/max scan).
Mirrors the source: empty buffer returns `(0, 1)`; otherwise the scan
starts from the sentinels `FLT_MAX`/`lowest`, skips NaN/Inf entries, and
afterwards falls back to `(0, 1)` only when `min == max` or min/max is
NaN or infinite. -/
def TensorProcessor.findMinMax (tensorData : List Flt) : Flt × Flt :=
  if tensorData.isEmpty then (Flt.fin 0, Flt.fin 1)
  else
    let scan := tensorData.foldl
      (fun (acc : Flt × Flt) value =>
        if value.isNaN || value.isInf then acc
        else (Flt.minF acc.1 value, Flt.maxF acc.2 value))
      (floatMax, floatLowest)
    if Flt.eqF scan.1 scan.2 || scan.1.isNaN || scan.1.isInf ||
        scan.2.isNaN || scan.2.isInf then
      (Flt.fin 0, Flt.fin 1)
    else scan

/-- `TensorProcessor::findMinMaxMultiChannel`.  Per-channel-plane scan;
a plane contributes only if it yielded a valid sample (its accumulators
moved off the sentinels); a no-valid-sample result falls back to
`(0, 1)` (checked against the sentinels explicitly, unlike the
single-channel variant), and `min == max` falls back to `(min, min+1)`. -/
def TensorProcessor.findMinMaxMultiChannel (tensorData : List Flt)
    (channelCount width height : Int) : Flt × Flt :=
  if tensorData.isEmpty ∨ width ≤ 0 ∨ height ≤ 0 ∨ channelCount ≤ 0 then
    (Flt.fin 0, Flt.fin 1)
  else
    let pointsPerChannel := (width * height).toNat
    let len := tensorData.length
    let scan := (List.range channelCount.toNat).foldl
      (fun (acc : Flt × Flt) c =>
        let startIdx := c * pointsPerChannel
        let endIdx := min (startIdx + pointsPerChannel) len
        if len ≤ startIdx then acc
        else
          let chanScan := (List.range' startIdx (endIdx - startIdx)).foldl
            (fun (a : Flt × Flt) i =>
              match tensorData.get? i with
              | some v =>
                  if v.isNaN || v.isInf then a
                  else (Flt.minF a.1 v, Flt.maxF a.2 v)
              | none => a)
            (floatMax, floatLowest)
          if !(Flt.eqF chanScan.1 floatMax) && !(Flt.eqF chanScan.2 floatLowest) then
            (Flt.minF acc.1 chanScan.1, Flt.maxF acc.2 chanScan.2)
          else acc)
      (floatMax, floatLowest)
    if Flt.eqF scan.1 floatMax || Flt.eqF scan.2 floatLowest ||
        scan.1.isNaN || scan.1.isInf || scan.2.isNaN || scan.2.isInf then
      (Flt.fin 0, Flt.fin 1)
    else if Flt.eqF scan.1 scan.2 then (scan.1, Flt.addF scan.1 (Flt.fin 1))
    else scan

/-- `TensorProcessor::normalize`.  NaN/Inf input value, non-finite bounds
or `min >= max` all return `0.5`; otherwise the value is clamped into
`[min, max]` and linearly rescaled (the division is exact on the rational
model; no claim evaluates it). -/
def TensorProcessor.normalize (value minValue maxValue : Flt) : Flt :=
  match value with
  | Flt.fin v =>
    match minValue, maxValue with
    | Flt.fin a, Flt.fin b =>
        if b ≤ a then Flt.fin (1/2)
        else Flt.fin ((max a (min b v) - a) / (b - a))
    | _, _ => Flt.fin (1/2)
  | _ => Flt.fin (1/2)

/-- The flat buffer index `TensorProcessor::getTensorValue` computes:
`y*width + x` in single-channel mode, `channelIdx*height*width + y*width + x`
in multi-channel (NCHW) mode. -/
def tensorDataIndex (x y channelIdx width height : Int)
    (isSingleChannel : Bool) : Int :=
  if isSingleChannel then y * width + x
  else channelIdx * height * width + y * width + x

/-- `TensorProcessor::getTensorValue`: bounds-checked indexed read with
optional normalization.  Mirrors the source's guard cascade: empty buffer
or non-positive dimensions, then coordinate/channel bounds, then (multi
mode) the plane start offset against the buffer length, then the final
index range check; a NaN/Inf stored value reads back as `0`. -/
def TensorProcessor.getTensorValue (tensorData : List Flt)
    (x y channelIdx width height : Int)
    (isSingleChannel doNormalize : Bool) (minValue maxValue : Flt) : Flt :=
  if tensorData.isEmpty ∨ width ≤ 0 ∨ height ≤ 0 then Flt.fin 0
  else if x < 0 ∨ width ≤ x ∨ y < 0 ∨ height ≤ y ∨ channelIdx < 0 then Flt.fin 0
  else if isSingleChannel = false ∧
      (tensorData.length : Int) ≤ channelIdx * height * width then Flt.fin 0
  else
    let dataIndex := tensorDataIndex x y channelIdx width height isSingleChannel
    if 0 ≤ dataIndex ∧ dataIndex < (tensorData.length : Int) then
      match tensorData.get? dataIndex.toNat with
      | some value =>
          if value.isNaN || value.isInf then Flt.fin 0
          else if doNormalize then TensorProcessor.normalize value minValue maxValue
          else value
      | none => Flt.fin 0
    else Flt.fin 0

/-- The repository's exception taxonomy (`ErrorHandling.h` kinds used by
the embedded components). -/
inductive Err where
  | configurationError (msg : String)
  | invalidArgumentError (msg : String)
  | inferenceError (msg : String)
  | modelLoadError (msg : String)
  | preprocessError (msg : String)
  deriving DecidableEq

/-- `what()` of an exception. -/
def Err.msg : Err → String
  | Err.configurationError m => m
  | Err.invalidArgumentError m => m
  | Err.inferenceError m => m
  | Err.modelLoadError m => m
  | Err.preprocessError m => m

/-- `TensorProcessor::InputTensorInfo`. -/
structure InputTensorInfo where
  data : List Flt
  shape : List Int
  name : String
  valid : Bool
  deriving DecidableEq

/-- Default-constructed `InputTensorInfo` (as produced by
`std::vector::resize`). -/
instance : Inhabited InputTensorInfo := ⟨⟨[], [], "", false⟩⟩

/-- Observable state of `ONNXModelManager`: load flag plus the
input/output name and shape lists extracted from the engine. -/
structure ManagerState where
  modelLoaded : Bool
  inputNames : List String
  outputNames : List String
  inputDims : List (List Int)
  outputDims : List (List Int)
  deriving DecidableEq

/-- State of `ONNXInferenceProcessor`: attached manager (`none` models a
null `_modelManager` pointer), input slots, configured input dimensions
and the derived output geometry. -/
structure ProcessorState where
  manager : Option ManagerState
  inputTensors : List InputTensorInfo
  width : Int
  height : Int
  channels : Int
  outputWidth : Int
  outputHeight : Int
  outputChannels : Int
  isSingleChannel : Bool
  deriving DecidableEq

/-- Body of the slot-initialisation loop of
`ONNXInferenceProcessor::prepareInputs`: name from the model when
available (else empty); a non-empty declared shape is used as template
with entries 2/3 overwritten by the actual height/width when its rank is
at least 4; otherwise the default NCHW shape; the slot starts invalid. -/
def prepareSlot (modelInputNames : List String)
    (modelInputDims : List (List Int))
    (height width channels : Int) (i : ℕ) : InputTensorInfo :=
  { data := []
    shape :=
      match modelInputDims.get? i with
      | some d =>
          if d.isEmpty then [1, channels, height, width]
          else if 4 ≤ d.length then (d.set 2 height).set 3 width
          else d
      | none => [1, channels, height, width]
    name := modelInputNames.getD i ""
    valid := false }

/-- `ONNXInferenceProcessor::prepareInputs`. -/
def ONNXInferenceProcessor.prepareInputs (st : ProcessorState)
    (inputCount : Int) : Except Err ProcessorState :=
  match st.manager with
  | none => Except.error (Err.configurationError "Model manager is not set")
  | some mgr =>
      if mgr.modelLoaded = false then
        Except.error (Err.configurationError "No model has been loaded in the manager")
      else if inputCount ≤ 0 then
        Except.error (Err.invalidArgumentError "Input count must be positive")
      else
        Except.ok { st with
          inputTensors := (List.range inputCount.toNat).map
            (prepareSlot mgr.inputNames mgr.inputDims st.height st.width st.channels) }

/-- `ONNXInferenceProcessor::setInputTensorData`. -/
def ONNXInferenceProcessor.setInputTensorData (st : ProcessorState)
    (inputIndex : Int) (data : List Flt) : Except Err ProcessorState :=
  if inputIndex < 0 ∨ (st.inputTensors.length : Int) ≤ inputIndex then
    Except.error (Err.invalidArgumentError "Input index out of range")
  else if data.isEmpty then
    Except.error (Err.invalidArgumentError "Input tensor data is empty")
  else
    let i := inputIndex.toNat
    let t := st.inputTensors.getD i default
    Except.ok { st with
      inputTensors := st.inputTensors.set i { t with data := data, valid := true } }

/-- Result of one engine `Run` call: the first requested output tensor's
actual shape (`GetTensorTypeAndShapeInfo().GetShape()`) and flat data. -/
structure EngineResult where
  outputShape : List Int
  outputData : List Flt
  deriving DecidableEq

/-- The opaque inference engine (`Ort::Session::Run` plus the output
extraction): given input buffers, shapes and resolved input names it
either fails with a message (an `Ort::Exception`, or the
"Invalid output tensor" case) or returns the first requested output. -/
abbrev EngineFn :=
  List (List Flt) → List (List Int) → List String → Except String EngineResult

/-- `ONNXModelManager::runInference` (single-input path): requires a
loaded model, binds the first declared input name (and the first declared
output name, implicit in the engine oracle), runs the engine, overwrites
the stored output shape at index 0 with the actual shape, and returns the
flat output buffer. -/
def ONNXModelManager.runInference (engine : EngineFn) (mgr : ManagerState)
    (inputTensor : List Flt) (inputShape : List Int) :
    Except Err (ManagerState × List Flt) :=
  if mgr.modelLoaded = false then
    Except.error (Err.inferenceError "Model not loaded")
  else
    match engine [inputTensor] [inputShape] [mgr.inputNames.getD 0 ""] with
    | Except.error m => Except.error (Err.inferenceError m)
    | Except.ok res =>
        Except.ok ({ mgr with outputDims := mgr.outputDims.set 0 res.outputShape },
          res.outputData)

/-- Name resolution step of `ONNXModelManager::runInferenceMultiInput`:
a non-empty supplied name is matched exactly against the declared input
names (first hit wins); with no match, or an empty supplied name, the
i-th declared name is used. -/
def resolveInputName (declared : List String) (supplied : String)
    (i : ℕ) : String :=
  match (if supplied ≠ "" then declared.find? (fun n => n == supplied)
         else none) with
  | some n => n
  | none => declared.getD i ""

/-- Guards plus name binding of `ONNXModelManager::runInferenceMultiInput`
(everything the function does before handing the tensors to the engine):
the not-loaded check, the buffer/shape count check, the too-many-names
check, then per-input name resolution. -/
def multiInputBindNames (mgr : ManagerState)
    (inputTensors : List (List Flt)) (inputShapes : List (List Int))
    (inputNames : List String) : Except Err (List String) :=
  if mgr.modelLoaded = false then
    Except.error (Err.inferenceError "Model not loaded")
  else if inputTensors.isEmpty ∨ inputTensors.length ≠ inputShapes.length then
    Except.error (Err.invalidArgumentError "Mismatch between input tensors and shapes")
  else if mgr.inputNames.length < inputNames.length then
    Except.error (Err.invalidArgumentError "Too many inputs provided for the model")
  else
    Except.ok ((List.range inputNames.length).map
      (fun i => resolveInputName mgr.inputNames (inputNames.getD i "") i))

/-- `ONNXModelManager::runInferenceMultiInput`: bind the names, run the
engine on the supplied tensors, overwrite the stored output shape at
index 0 with the actual shape, and return the flat output buffer. -/
def ONNXModelManager.runInferenceMultiInput (engine : EngineFn)
    (mgr : ManagerState) (inputTensors : List (List Flt))
    (inputShapes : List (List Int)) (inputNames : List String) :
    Except Err (ManagerState × List Flt) :=
  match multiInputBindNames mgr inputTensors inputShapes inputNames with
  | Except.error e => Except.error e
  | Except.ok bound =>
      match engine inputTensors inputShapes bound with
      | Except.error m => Except.error (Err.inferenceError m)
      | Except.ok res =>
          Except.ok ({ mgr with outputDims := mgr.outputDims.set 0 res.outputShape },
            res.outputData)

/-- Valid-slot collection loop of `ONNXInferenceProcessor::runInference`:
walks the slots in index order keeping the valid ones; a valid slot with
empty data or empty shape raises `ConfigurationError`. -/
def collectValidTensors : List InputTensorInfo → Except Err (List InputTensorInfo)
  | [] => Except.ok []
  | t :: rest =>
    if t.valid then
      if t.data.isEmpty then
        Except.error (Err.configurationError
          "Input tensor has empty data despite being marked valid")
      else if t.shape.isEmpty then
        Except.error (Err.configurationError
          "Input tensor has empty shape despite being marked valid")
      else
        match collectValidTensors rest with
        | Except.error e => Except.error e
        | Except.ok r => Except.ok (t :: r)
    else collectValidTensors rest

/-- Derived output geometry of the Inference Processor. -/
structure Geometry where
  width : Int
  height : Int
  channels : Int
  deriving DecidableEq

/-- Output-geometry derivation at the end of
`ONNXInferenceProcessor::runInference`: the defaults `(input width,
input height, 1)` are written first and are overwritten only when the
stored first output shape has rank >= 4 (read as NCHW from entries
1..3), rank 3 (CHW) or rank 2 (HW). -/
def deriveOutputGeometry (inWidth inHeight : Int)
    (outputDims : List (List Int)) : Geometry :=
  match outputDims with
  | [] => { width := inWidth, height := inHeight, channels := 1 }
  | d0 :: _ =>
      if 4 ≤ d0.length then
        { width := d0.getD 3 0, height := d0.getD 2 0, channels := d0.getD 1 0 }
      else if d0.length = 3 then
        { width := d0.getD 2 0, height := d0.getD 1 0, channels := d0.getD 0 0 }
      else if d0.length = 2 then
        { width := d0.getD 1 0, height := d0.getD 0 0, channels := 1 }
      else { width := inWidth, height := inHeight, channels := 1 }

/-- Dispatch step of `ONNXInferenceProcessor::runInference`: more than
one valid slot goes through the multi-input path, exactly one through
the single-input path; manager exceptions are rewrapped as
`InferenceError` with the underlying message appended. -/
def dispatchRun (engine : EngineFn) (mgr : ManagerState)
    (valids : List InputTensorInfo) : Except Err (ManagerState × List Flt) :=
  if 1 < valids.length then
    match ONNXModelManager.runInferenceMultiInput engine mgr
        (valids.map InputTensorInfo.data)
        (valids.map InputTensorInfo.shape)
        (valids.map InputTensorInfo.name) with
    | Except.error e =>
        Except.error (Err.inferenceError
          ("Multi-input inference failed: " ++ e.msg))
    | Except.ok r => Except.ok r
  else
    match ONNXModelManager.runInference engine mgr
        ((valids.map InputTensorInfo.data).getD 0 [])
        ((valids.map InputTensorInfo.shape).getD 0 []) with
    | Except.error e =>
        Except.error (Err.inferenceError
          ("Single-input inference failed: " ++ e.msg))
    | Except.ok r => Except.ok r

/-- `ONNXInferenceProcessor::runInference`: guard cascade (manager set,
model loaded), valid-slot collection, at-least-one-valid check, dispatch
to the manager, then output-geometry derivation from the post-run stored
output shape (`ConfigurationError`/`InferenceError` propagate
unchanged). -/
def ONNXInferenceProcessor.runInference (engine : EngineFn)
    (st : ProcessorState) : Except Err (ProcessorState × List Flt) :=
  match st.manager with
  | none => Except.error (Err.configurationError "Model manager is not set")
  | some mgr =>
    if mgr.modelLoaded = false then
      Except.error (Err.configurationError "No model has been loaded in the manager")
    else
      match collectValidTensors st.inputTensors with
      | Except.error e => Except.error e
      | Except.ok valids =>
        if valids.isEmpty then
          Except.error (Err.configurationError
            "No valid input tensors available for inference")
        else
          match dispatchRun engine mgr valids with
          | Except.error e => Except.error e
          | Except.ok (mgr2, outData) =>
            let g := deriveOutputGeometry st.width st.height mgr2.outputDims
            Except.ok ({ st with
                manager := some mgr2
                outputWidth := g.width
                outputHeight := g.height
                outputChannels := g.channels
                isSingleChannel := decide (g.channels = 1) }, outData)

/-- Concrete manager for C2: loaded, one declared input/output. -/
def mgrC2 : ManagerState :=
  { modelLoaded := true
    inputNames := ["in"]
    outputNames := ["out"]
    inputDims := [[1, 3, -1, -1]]
    outputDims := [[1, 1, 4, 4]] }

/-- Concrete processor state for C2: previous derived geometry
`(10, 20, 5)`, input image 64x32, one valid input slot. -/
def stC2 : ProcessorState :=
  { manager := some mgrC2
    inputTensors := [{ data := [Flt.fin 1], shape := [1, 3, 32, 64],
                       name := "in", valid := true }]
    width := 64
    height := 32
    channels := 3
    outputWidth := 10
    outputHeight := 20
    outputChannels := 5
    isSingleChannel := false }

/-- Engine stub for C2 returning a rank-1 output shape `[7]`. -/
def engineC2 : EngineFn := fun _ _ _ =>
  Except.ok { outputShape := [7]
              outputData := [Flt.fin 1, Flt.fin 2, Flt.fin 3, Flt.fin 4,
                             Flt.fin 5, Flt.fin 6, Flt.fin 7] }

/-- Manager state after the C2 run: stored output shape overwritten. -/
def mgrC2after : ManagerState := { mgrC2 with outputDims := [[7]] }

/-- Processor state after the C2 run: geometry reset to the defaults
`(input width, input height, 1)`, not left at `(10, 20, 5)`. -/
def stC2after : ProcessorState :=
  { stC2 with
    manager := some mgrC2after
    outputWidth := 64
    outputHeight := 32
    outputChannels := 1
    isSingleChannel := true }

/-- Output buffer returned by the C2 run. -/
def outDataC2 : List Flt :=
  [Flt.fin 1, Flt.fin 2, Flt.fin 3, Flt.fin 4, Flt.fin 5, Flt.fin 6, Flt.fin 7]

/-- Concrete manager for C6: loaded model declaring inputs
`["img", "aux"]`. -/
def mgrC6 : ManagerState :=
  { modelLoaded := true
    inputNames := ["img", "aux"]
    outputNames := ["out"]
    inputDims := [[1, 3, -1, -1], [1, 1, -1, -1]]
    outputDims := [[1, 1, 4, 4]] }

/-- `ONNXModelManager::unload`: clears all metadata, drops the session,
always succeeds (the argument is the state being cleared). -/
def mgrUnload (_st : ManagerState) : ManagerState :=
  { modelLoaded := false, inputNames := [], outputNames := [],
    inputDims := [], outputDims := [] }

/-- Engine-reported model metadata (what `extractModelInfo` reads from
the session: names and shapes of every input and output slot). -/
structure EngineMetadata where
  inputNames : List String
  inputDims : List (List Int)
  outputNames : List String
  outputDims : List (List Int)
  deriving DecidableEq

/-- `ONNXModelManager::load`: an already-loaded model is unloaded first;
the load flag is cleared; engine failure (modelled by `none` metadata)
raises `ModelLoadError` and leaves the handle unloaded; on success the
metadata lists are repopulated from the engine — with no check that the
reported input list is non-empty — and the load flag is set. -/
def ONNXModelManager.load (st : ManagerState)
    (meta : Option EngineMetadata) : ManagerState × Option Err :=
  let st1 := if st.modelLoaded then mgrUnload st else st
  let st2 := { st1 with modelLoaded := false }
  match meta with
  | none => (st2, some (Err.modelLoadError "ONNX Runtime error"))
  | some m =>
      ({ modelLoaded := true, inputNames := m.inputNames,
         outputNames := m.outputNames, inputDims := m.inputDims,
         outputDims := m.outputDims }, none)

/-- `ONNXRuntimeOp::loadModel`, restricted to its effect on the manager
state: an empty path fails up front; an engine failure propagates; a
successfully loaded model whose reported input count is zero is unloaded
again and `ModelLoadError` is raised. -/
def opLoadModel (st : ManagerState) (modelPath : String)
    (meta : Option EngineMetadata) : ManagerState × Option Err :=
  if modelPath = "" then
    (st, some (Err.configurationError "Model path is empty"))
  else
    match ONNXModelManager.load st meta with
    | (st2, some e) => (st2, some e)
    | (st2, none) =>
        if st2.inputNames.length = 0 then
          (mgrUnload st2,
            some (Err.modelLoadError "Invalid model: No inputs found"))
        else (st2, none)

/-- The freshly constructed (unloaded) manager. -/
def mgrInit : ManagerState :=
  { modelLoaded := false, inputNames := [], outputNames := [],
    inputDims := [], outputDims := [] }

/-- Metadata of a model whose engine reports zero inputs. -/
def metaNoInputs : EngineMetadata :=
  { inputNames := [], inputDims := [], outputNames := ["out"],
    outputDims := [[1, 1, 2, 2]] }

/-- Metadata of a model with one declared input. -/
def metaOneInput : EngineMetadata :=
  { inputNames := ["img"], inputDims := [[1, 3, 224, 224]],
    outputNames := ["out"], outputDims := [[1, 1, 224, 224]] }

/-- One operation on the manager state as driven by the operator:
`loadModel` (any path and engine metadata), `unload`, or the output-shape
overwrite the run paths perform on a loaded model. -/
inductive OpStep : ManagerState → ManagerState → Prop where
  | loadModel (path : String) (meta : Option EngineMetadata)
      (st : ManagerState) : OpStep st (opLoadModel st path meta).1
  | unload (st : ManagerState) : OpStep st (mgrUnload st)
  | setOutputShape (shape : List Int) (st : ManagerState) :
      st.modelLoaded = true →
      OpStep st { st with outputDims := st.outputDims.set 0 shape }

/-- Model of a `DD::Image::Tile`: which semantic channels
(0=red, 1=green, 2=blue, 3=alpha — the fixed mapping of
`tileToNCHWTensor`'s switch) are present, the bounding-box offsets, and
the row pointers — `rows c yAbs` is `none` when `tile[chan][yAbs]` is a
null row pointer, otherwise the row as a total function of the absolute
column index. -/
structure Tile where
  chanPresent : ℕ → Bool
  xOffset : Int
  yOffset : Int
  rows : ℕ → Int → Option (Int → Flt)

/-- `std::vector<float>::resize(n)`: truncate, or extend with
value-initialised (zero) floats. -/
def listResize (l : List Flt) (n : ℕ) : List Flt :=
  l.take n ++ List.replicate (n - l.length) (Flt.fin 0)

/-- A loop writing `g j` to index `base + j` for every `j < n`: the shape
of both the `std::fill` over a missing channel's plane and the per-row
copy loop of `tileToNCHWTensor`. -/
def setRange (t : List Flt) (base n : ℕ) (g : ℕ → Flt) : List Flt :=
  (List.range n).foldl (fun acc j => acc.set (base + j) (g j)) t

/-- Row-copy step of `Utils::tileToNCHWTensor` at plane row `h`: a null
source row pointer leaves the buffer untouched (`continue`); otherwise
column `w` of plane row `h` receives source column `w + xOffset` of
source row `h + yOffset`. -/
def copyRowStep (tile : Tile) (H W c : ℕ) (t : List Flt) (h : ℕ) : List Flt :=
  match tile.rows c ((h : Int) + tile.yOffset) with
  | none => t
  | some srcRow =>
      setRange t (c * H * W + h * W) W
        (fun w => srcRow ((w : Int) + tile.xOffset))

/-- Per-channel body of `Utils::tileToNCHWTensor`: channel indices 4 and
above are skipped (`default: continue`); a missing semantic channel
zero-fills its whole plane; otherwise every non-null source row is
copied into the plane. -/
def processChannel (tile : Tile) (H W : ℕ) (tensor : List Flt)
    (c : ℕ) : List Flt :=
  if 4 ≤ c then tensor
  else if tile.chanPresent c = false then
    setRange tensor (c * H * W) (H * W) (fun _ => Flt.fin 0)
  else
    (List.range H).foldl (copyRowStep tile H W c) tensor

/-- `Utils::tileToNCHWTensor`: dimension guard (`PreprocessError`),
resize of the caller's buffer to `1*channels*height*width`, then the
channel loop. -/
def Utils.tileToNCHWTensor (tile : Tile) (tensor : List Flt)
    (width height channels : Int) : Except Err (List Flt) :=
  if width ≤ 0 ∨ height ≤ 0 ∨ channels ≤ 0 then
    Except.error (Err.preprocessError "Invalid dimensions for tensor conversion")
  else
    Except.ok ((List.range channels.toNat).foldl
      (processChannel tile height.toNat width.toNat)
      (listResize tensor (1 * channels.toNat * height.toNat * width.toNat)))

/-- Concrete tile used by the adapter witnesses: red channel present,
remaining channels absent; box offset `(1, 2)`; every row present, pixel
value equal to its absolute column index. -/
def tileW : Tile :=
  { chanPresent := fun c => c == 0
    xOffset := 1
    yOffset := 2
    rows := fun _ _ => some (fun x => Flt.fin (x : ℚ)) }

/-- Scenario manager: a loaded model declaring one input with shape
`[1, 3, -1, -1]` (dynamic spatial dimensions). -/
def mgrScenario : ManagerState :=
  { modelLoaded := true
    inputNames := ["img"]
    outputNames := ["out"]
    inputDims := [[1, 3, -1, -1]]
    outputDims := [[1, 1, -1, -1]] }

/-- Scenario processor state: attached to `mgrScenario`, configured for a
64-wide, 32-high, 3-channel image. -/
def stScenario : ProcessorState :=
  { manager := some mgrScenario
    inputTensors := []
    width := 64
    height := 32
    channels := 3
    outputWidth := 0
    outputHeight := 0
    outputChannels := 0
    isSingleChannel := true }

/-- Scenario state right after `prepareInputs(1)`: one slot, shape
`[1, 3, 32, 64]`, still invalid. -/
def stScenarioPrepared : ProcessorState :=
  { stScenario with
    inputTensors := [{ data := [], shape := [1, 3, 32, 64],
                       name := "img", valid := false }] }

/-- C1: the single-channel scan on the all-NaN buffer `[NaN]` leaves both
accumulators at their sentinels and the fallback check does not fire. -/
theorem findMinMax_allNaN_divergence :
    TensorProcessor.findMinMax [Flt.nan] = (floatMax, floatLowest) ∧
    TensorProcessor.findMinMax [Flt.nan] ≠ (Flt.fin 0, Flt.fin 1) ∧
    TensorProcessor.findMinMaxMultiChannel [Flt.nan] 1 1 1 = (Flt.fin 0, Flt.fin 1) := by
  refine ⟨rfl, ?_, rfl⟩
  decide

/-- C8: `getTensorValue` returns exactly `0` for an empty buffer,
non-positive dimensions, out-of-range coordinates or negative channel
index; in multi-channel mode also when the plane start offset is at or
past the buffer length; a NaN/Inf stored value at the addressed index
reads back as `0` regardless of the normalize flag; and every non-zero
result is the (optionally normalized) value of an element actually
inside the buffer, so no call reads outside the buffer. -/
theorem getTensorValue_safety :
    (∀ (d : List Flt) (x y c w h : Int) (sc nrm : Bool) (mn mx : Flt),
        (d = [] ∨ w ≤ 0 ∨ h ≤ 0 ∨ x < 0 ∨ w ≤ x ∨ y < 0 ∨ h ≤ y ∨ c < 0) →
        TensorProcessor.getTensorValue d x y c w h sc nrm mn mx = Flt.fin 0) ∧
    (∀ (d : List Flt) (x y c w h : Int) (nrm : Bool) (mn mx : Flt),
        (d.length : Int) ≤ c * h * w →
        TensorProcessor.getTensorValue d x y c w h false nrm mn mx = Flt.fin 0) ∧
    (∀ (d : List Flt) (x y c w h : Int) (sc nrm : Bool) (mn mx : Flt) (v : Flt),
        d.get? (tensorDataIndex x y c w h sc).toNat = some v →
        (v.isNaN = true ∨ v.isInf = true) →
        TensorProcessor.getTensorValue d x y c w h sc nrm mn mx = Flt.fin 0) ∧
    (∀ (d : List Flt) (x y c w h : Int) (sc nrm : Bool) (mn mx : Flt),
        TensorProcessor.getTensorValue d x y c w h sc nrm mn mx = Flt.fin 0 ∨
        ∃ i : ℕ, i < d.length ∧ ∃ v, d.get? i = some v ∧
          v.isNaN = false ∧ v.isInf = false ∧
          TensorProcessor.getTensorValue d x y c w h sc nrm mn mx =
            (if nrm then TensorProcessor.normalize v mn mx else v)) := by
  refine ⟨?_, ?_, ?_, ?_⟩
  · intro d x y c w h sc nrm mn mx hcond
    unfold TensorProcessor.getTensorValue
    by_cases hA : (d.isEmpty ∨ w ≤ 0 ∨ h ≤ 0)
    · rw [if_pos hA]
    · have hB : (x < 0 ∨ w ≤ x ∨ y < 0 ∨ h ≤ y ∨ c < 0) := by
        rcases hcond with hc | hc | hc | hc | hc | hc | hc | hc
        · exact absurd (Or.inl (by simp [hc])) hA
        · exact absurd (Or.inr (Or.inl hc)) hA
        · exact absurd (Or.inr (Or.inr hc)) hA
        · exact Or.inl hc
        · exact Or.inr (Or.inl hc)
        · exact Or.inr (Or.inr (Or.inl hc))
        · exact Or.inr (Or.inr (Or.inr (Or.inl hc)))
        · exact Or.inr (Or.inr (Or.inr (Or.inr hc)))
      rw [if_neg hA, if_pos hB]
  · intro d x y c w h nrm mn mx hlen
    unfold TensorProcessor.getTensorValue
    by_cases hA : (d.isEmpty ∨ w ≤ 0 ∨ h ≤ 0)
    · rw [if_pos hA]
    · rw [if_neg hA]
      by_cases hB : (x < 0 ∨ w ≤ x ∨ y < 0 ∨ h ≤ y ∨ c < 0)
      · rw [if_pos hB]
      · rw [if_neg hB, if_pos ⟨rfl, hlen⟩]
  · intro d x y c w h sc nrm mn mx v hget hbad
    unfold TensorProcessor.getTensorValue
    by_cases hA : (d.isEmpty ∨ w ≤ 0 ∨ h ≤ 0)
    · rw [if_pos hA]
    · rw [if_neg hA]
      by_cases hB : (x < 0 ∨ w ≤ x ∨ y < 0 ∨ h ≤ y ∨ c < 0)
      · rw [if_pos hB]
      · rw [if_neg hB]
        by_cases hC : (sc = false ∧ (d.length : Int) ≤ c * h * w)
        · rw [if_pos hC]
        · rw [if_neg hC]
          simp only
          by_cases hD : (0 ≤ tensorDataIndex x y c w h sc ∧
              tensorDataIndex x y c w h sc < (d.length : Int))
          · rw [if_pos hD, hget]
            have : (v.isNaN || v.isInf) = true := by
              rcases hbad with hb | hb <;> simp [hb]
            simp [this]
          · rw [if_neg hD]
  · intro d x y c w h sc nrm mn mx
    unfold TensorProcessor.getTensorValue
    by_cases hA : (d.isEmpty ∨ w ≤ 0 ∨ h ≤ 0)
    · rw [if_pos hA]; exact Or.inl rfl
    · rw [if_neg hA]
      by_cases hB : (x < 0 ∨ w ≤ x ∨ y < 0 ∨ h ≤ y ∨ c < 0)
      · rw [if_pos hB]; exact Or.inl rfl
      · rw [if_neg hB]
        by_cases hC : (sc = false ∧ (d.length : Int) ≤ c * h * w)
        · rw [if_pos hC]; exact Or.inl rfl
        · rw [if_neg hC]
          simp only
          by_cases hD : (0 ≤ tensorDataIndex x y c w h sc ∧
              tensorDataIndex x y c w h sc < (d.length : Int))
          · rw [if_pos hD]
            rcases hget : d.get? (tensorDataIndex x y c w h sc).toNat with _ | v
            · exact Or.inl rfl
            · by_cases hbad : (v.isNaN || v.isInf) = true
              · simp [hbad]
              · simp only [Bool.or_eq_true, not_or, Bool.not_eq_true] at hbad
                refine Or.inr ⟨(tensorDataIndex x y c w h sc).toNat, by omega, v, hget,
                  hbad.1, hbad.2, ?_⟩
                simp [hbad.1, hbad.2]
          · rw [if_neg hD]; exact Or.inl rfl

/-- Witness for C8 at concrete inputs. -/
theorem getTensorValue_safety_witness :
    TensorProcessor.getTensorValue [Flt.fin 7] (-1) 0 0 3 3 true false
      (Flt.fin 0) (Flt.fin 1) = Flt.fin 0 ∧
    TensorProcessor.getTensorValue [Flt.fin 7] 0 0 2 1 1 false false
      (Flt.fin 0) (Flt.fin 1) = Flt.fin 0 ∧
    TensorProcessor.getTensorValue [Flt.nan] 0 0 0 1 1 true false
      (Flt.fin 0) (Flt.fin 1) = Flt.fin 0 :=
  ⟨getTensorValue_safety.1 [Flt.fin 7] (-1) 0 0 3 3 true false (Flt.fin 0) (Flt.fin 1)
      (Or.inr (Or.inr (Or.inr (Or.inl (by decide))))),
   getTensorValue_safety.2.1 [Flt.fin 7] 0 0 2 1 1 false (Flt.fin 0) (Flt.fin 1)
      (by decide),
   getTensorValue_safety.2.2.1 [Flt.nan] 0 0 0 1 1 true false (Flt.fin 0) (Flt.fin 1)
      Flt.nan rfl (Or.inl rfl)⟩

/-- Reading slot `i` of a mapped range. -/
theorem list_getD_map_range {α : Type} (f : ℕ → α) (n i : ℕ) (d : α)
    (h : i < n) : ((List.range n).map f).getD i d = f i := by
  rw [List.getD_eq_getElem?_getD, List.getElem?_map, List.getElem?_range h]
  rfl

/-- C5: when `prepareInputs(n)` succeeds (manager attached, model loaded,
`n > 0`) it allocates `n` slots, each initially invalid with empty data;
a slot whose declared model shape is non-empty gets that shape copied,
with entries 2 and 3 overwritten by the configured actual height and
width exactly when its rank is at least 4 (all other entries preserved);
a slot with no declared (or an empty declared) shape gets the default
NCHW shape `[1, channels, height, width]`. -/
theorem prepareInputs_shapes (st : ProcessorState) (mgr : ManagerState)
    (n : Int) (hm : st.manager = some mgr) (hl : mgr.modelLoaded = true)
    (hn : 0 < n) :
    ∃ st2, ONNXInferenceProcessor.prepareInputs st n = Except.ok st2 ∧
      st2.inputTensors.length = n.toNat ∧
      ∀ i : ℕ, i < n.toNat →
        (st2.inputTensors.getD i default).valid = false ∧
        (st2.inputTensors.getD i default).data = [] ∧
        (∀ d, mgr.inputDims.get? i = some d → d ≠ [] →
          (st2.inputTensors.getD i default).shape.length = d.length ∧
          (4 ≤ d.length →
            ((st2.inputTensors.getD i default).shape)[2]? = some st.height ∧
            ((st2.inputTensors.getD i default).shape)[3]? = some st.width ∧
            ∀ j : ℕ, j ≠ 2 → j ≠ 3 →
              ((st2.inputTensors.getD i default).shape)[j]? = d[j]?) ∧
          (d.length < 4 → (st2.inputTensors.getD i default).shape = d)) ∧
        ((mgr.inputDims.get? i = none ∨ mgr.inputDims.get? i = some []) →
          (st2.inputTensors.getD i default).shape =
            [1, st.channels, st.height, st.width]) := by
  have hok : ONNXInferenceProcessor.prepareInputs st n = Except.ok { st with
      inputTensors := (List.range n.toNat).map
        (prepareSlot mgr.inputNames mgr.inputDims st.height st.width st.channels) } := by
    unfold ONNXInferenceProcessor.prepareInputs
    rw [hm]
    dsimp only
    rw [if_neg (by simp [hl]), if_neg (not_le.mpr hn)]
  refine ⟨_, hok, by simp, ?_⟩
  intro i hi
  have hslot : ((List.range n.toNat).map
      (prepareSlot mgr.inputNames mgr.inputDims st.height st.width st.channels)).getD
        i default =
      prepareSlot mgr.inputNames mgr.inputDims st.height st.width st.channels i :=
    list_getD_map_range _ _ i default hi
  simp only [hslot]
  refine ⟨rfl, rfl, ?_, ?_⟩
  · intro d hd hne
    simp only [prepareSlot]
    rw [hd]
    simp only
    rw [if_neg (by simpa [List.isEmpty_iff] using hne)]
    by_cases h4 : 4 ≤ d.length
    · rw [if_pos h4]
      refine ⟨by simp, fun _ => ⟨?_, ?_, ?_⟩, fun hlt => absurd h4 (not_le.mpr hlt)⟩
      · rw [List.getElem?_set_ne (by omega),
          List.getElem?_set_eq_of_lt _ (by omega)]
      · rw [List.getElem?_set_eq_of_lt _ (by simp; omega)]
      · intro j hj2 hj3
        rw [List.getElem?_set_ne (by omega), List.getElem?_set_ne (by omega)]
    · rw [if_neg h4]
      exact ⟨rfl, fun h4w => absurd h4w h4, fun _ => rfl⟩
  · intro hcase
    simp only [prepareSlot]
    rcases hcase with hd | hd
    · rw [hd]
    · rw [hd]; rfl

/-- Witness for C5: the scenario of the claim — declared shape
`[1,3,-1,-1]`, 64-wide 32-high image, `prepareInputs(1)`. -/
theorem prepareInputs_shapes_witness :
    (stScenario.manager = some mgrScenario ∧ mgrScenario.modelLoaded = true ∧
      (0 : Int) < 1) ∧
    (∃ st2, ONNXInferenceProcessor.prepareInputs stScenario 1 = Except.ok st2 ∧
      st2.inputTensors.length = (1 : Int).toNat ∧
      ∀ i : ℕ, i < (1 : Int).toNat →
        (st2.inputTensors.getD i default).valid = false ∧
        (st2.inputTensors.getD i default).data = [] ∧
        (∀ d, mgrScenario.inputDims.get? i = some d → d ≠ [] →
          (st2.inputTensors.getD i default).shape.length = d.length ∧
          (4 ≤ d.length →
            ((st2.inputTensors.getD i default).shape)[2]? = some stScenario.height ∧
            ((st2.inputTensors.getD i default).shape)[3]? = some stScenario.width ∧
            ∀ j : ℕ, j ≠ 2 → j ≠ 3 →
              ((st2.inputTensors.getD i default).shape)[j]? = d[j]?) ∧
          (d.length < 4 → (st2.inputTensors.getD i default).shape = d)) ∧
        ((mgrScenario.inputDims.get? i = none ∨
            mgrScenario.inputDims.get? i = some []) →
          (st2.inputTensors.getD i default).shape =
            [1, stScenario.channels, stScenario.height, stScenario.width])) :=
  ⟨⟨rfl, rfl, by decide⟩,
   prepareInputs_shapes stScenario mgrScenario 1 rfl rfl (by decide)⟩

/-- Sanity check of the scenario: the produced slot shape is
`[1, 3, 32, 64]`. -/
theorem prepareInputs_scenario_shape :
    (ONNXInferenceProcessor.prepareInputs stScenario 1).map
      (fun st2 => (st2.inputTensors.getD 0 default).shape) =
      Except.ok [1, 3, 32, 64] := rfl

/-- A slot list with no valid slot collects to the empty list. -/
theorem collectValidTensors_allInvalid (l : List InputTensorInfo)
    (h : ∀ t ∈ l, t.valid = false) : collectValidTensors l = Except.ok [] := by
  induction l with
  | nil => rfl
  | cons t rest ih =>
      have ht := h t (by simp)
      simp only [collectValidTensors, ht, Bool.false_eq_true, if_false]
      exact ih (fun u hu => h u (List.mem_cons_of_mem _ hu))

/-- A valid slot with empty data or empty shape makes the collection
fail with a `ConfigurationError`. -/
theorem collectValidTensors_badSlot (l : List InputTensorInfo)
    (t : InputTensorInfo) (hmem : t ∈ l) (hv : t.valid = true)
    (hbad : t.data = [] ∨ t.shape = []) :
    ∃ m, collectValidTensors l = Except.error (Err.configurationError m) := by
  induction l with
  | nil => cases hmem
  | cons u rest ih =>
      by_cases hu : u.valid = true
      · by_cases hud : u.data.isEmpty = true
        · exact ⟨"Input tensor has empty data despite being marked valid",
            by simp [collectValidTensors, hu, hud]⟩
        · by_cases hus : u.shape.isEmpty = true
          · exact ⟨"Input tensor has empty shape despite being marked valid",
              by simp [collectValidTensors, hu, hud, hus]⟩
          · have htr : t ∈ rest := by
              rcases List.mem_cons.mp hmem with rfl | hr
              · exfalso
                rcases hbad with hb | hb
                · rw [hb] at hud; exact hud rfl
                · rw [hb] at hus; exact hus rfl
              · exact hr
            rcases ih htr with ⟨m, hm⟩
            refine ⟨m, ?_⟩
            simp [collectValidTensors, hu, hud, hus, hm]
      · have htr : t ∈ rest := by
          rcases List.mem_cons.mp hmem with rfl | hr
          · exact absurd hv hu
          · exact hr
        rcases ih htr with ⟨m, hm⟩
        refine ⟨m, ?_⟩
        have hu2 : u.valid = false := by revert hu; cases u.valid <;> simp
        simp [collectValidTensors, hu2, hm]

/-- Successful `prepareInputs` implies an attached, loaded manager and
every produced slot invalid. -/
theorem prepareInputs_ok_inversion (st : ProcessorState) (n : Int)
    (st2 : ProcessorState)
    (hok : ONNXInferenceProcessor.prepareInputs st n = Except.ok st2) :
    ∃ mgr, st.manager = some mgr ∧ mgr.modelLoaded = true ∧
      st2.manager = some mgr ∧ ∀ t ∈ st2.inputTensors, t.valid = false := by
  unfold ONNXInferenceProcessor.prepareInputs at hok
  rcases hmgr : st.manager with _ | mgr <;> rw [hmgr] at hok <;> dsimp only at hok
  · cases hok
  · by_cases hl : mgr.modelLoaded = false
    · rw [if_pos hl] at hok; cases hok
    · rw [if_neg hl] at hok
      by_cases hn : n ≤ 0
      · rw [if_pos hn] at hok; cases hok
      · rw [if_neg hn] at hok
        cases hok
        have hl2 : mgr.modelLoaded = true := by
          revert hl; cases mgr.modelLoaded <;> simp
        refine ⟨mgr, rfl, hl2, rfl, ?_⟩
        intro t ht
        rcases List.mem_map.mp ht with ⟨i, _, rfl⟩
        rfl

/-- C7: `runInference` fails with `ConfigurationError` — and, being a
total function of the model, never crashes — whenever no model manager is
attached, the model is unloaded, zero slots are marked valid, or some
valid slot has empty data or empty shape; in particular any successful
`prepareInputs(n)` followed immediately by `runInference` (no
`setInputTensorData` in between, so all slots are invalid) fails with
`ConfigurationError`. -/
theorem runInference_configuration_errors :
    (∀ (engine : EngineFn) (st : ProcessorState), st.manager = none →
      ∃ m, ONNXInferenceProcessor.runInference engine st =
        Except.error (Err.configurationError m)) ∧
    (∀ (engine : EngineFn) (st : ProcessorState) (mgr : ManagerState),
      st.manager = some mgr → mgr.modelLoaded = false →
      ∃ m, ONNXInferenceProcessor.runInference engine st =
        Except.error (Err.configurationError m)) ∧
    (∀ (engine : EngineFn) (st : ProcessorState) (mgr : ManagerState),
      st.manager = some mgr → mgr.modelLoaded = true →
      (∀ t ∈ st.inputTensors, t.valid = false) →
      ∃ m, ONNXInferenceProcessor.runInference engine st =
        Except.error (Err.configurationError m)) ∧
    (∀ (engine : EngineFn) (st : ProcessorState) (mgr : ManagerState)
        (t : InputTensorInfo),
      st.manager = some mgr → mgr.modelLoaded = true →
      t ∈ st.inputTensors → t.valid = true → (t.data = [] ∨ t.shape = []) →
      ∃ m, ONNXInferenceProcessor.runInference engine st =
        Except.error (Err.configurationError m)) ∧
    (∀ (engine : EngineFn) (st st2 : ProcessorState) (n : Int),
      ONNXInferenceProcessor.prepareInputs st n = Except.ok st2 →
      ∃ m, ONNXInferenceProcessor.runInference engine st2 =
        Except.error (Err.configurationError m)) := by
  have hnoValid : ∀ (engine : EngineFn) (st : ProcessorState) (mgr : ManagerState),
      st.manager = some mgr → mgr.modelLoaded = true →
      (∀ t ∈ st.inputTensors, t.valid = false) →
      ∃ m, ONNXInferenceProcessor.runInference engine st =
        Except.error (Err.configurationError m) := by
    intro engine st mgr hm hl hinv
    refine ⟨"No valid input tensors available for inference", ?_⟩
    unfold ONNXInferenceProcessor.runInference
    rw [hm]
    dsimp only
    rw [if_neg (by simp [hl]), collectValidTensors_allInvalid _ hinv]
    rfl
  refine ⟨?_, ?_, hnoValid, ?_, ?_⟩
  · intro engine st hm
    refine ⟨"Model manager is not set", ?_⟩
    unfold ONNXInferenceProcessor.runInference
    rw [hm]
  · intro engine st mgr hm hl
    refine ⟨"No model has been loaded in the manager", ?_⟩
    unfold ONNXInferenceProcessor.runInference
    rw [hm]
    dsimp only
    rw [if_pos hl]
  · intro engine st mgr t hm hl hmem hv hbad
    rcases collectValidTensors_badSlot st.inputTensors t hmem hv hbad with ⟨m, hcol⟩
    refine ⟨m, ?_⟩
    unfold ONNXInferenceProcessor.runInference
    rw [hm]
    dsimp only
    rw [if_neg (by simp [hl]), hcol]
  · intro engine st st2 n hok
    rcases prepareInputs_ok_inversion st n st2 hok with ⟨mgr, _, hl, hm2, hinv⟩
    exact hnoValid engine st2 mgr hm2 hl hinv

/-- Witness for C7: `prepareInputs(1)` on the scenario state followed by
`runInference` fails with `ConfigurationError`. -/
theorem runInference_configuration_errors_witness :
    (ONNXInferenceProcessor.prepareInputs stScenario 1 =
      Except.ok stScenarioPrepared) ∧
    ∃ m, ONNXInferenceProcessor.runInference engineC2 stScenarioPrepared =
      Except.error (Err.configurationError m) :=
  ⟨rfl, runInference_configuration_errors.2.2.2.2 engineC2 stScenario
    stScenarioPrepared 1 rfl⟩

/-- C2 counterexample: a successful `runInference` whose stored output
shape ends with rank 1 (not 2, 3 or 4) does not leave the derived output
geometry at its previous value `(10, 20, 5)` — the code resets it to the
input-dimension defaults `(64, 32, 1)`. -/
theorem runInference_rank1_resets_geometry :
    ONNXInferenceProcessor.runInference engineC2 stC2 =
      Except.ok (stC2after, outDataC2) ∧
    (mgrC2after.outputDims.getD 0 []).length = 1 ∧
    (stC2after.outputWidth, stC2after.outputHeight, stC2after.outputChannels) =
      (64, 32, 1) ∧
    (stC2.outputWidth, stC2.outputHeight, stC2.outputChannels) = (10, 20, 5) ∧
    ((64, 32, 1) : Int × Int × Int) ≠ (10, 20, 5) :=
  ⟨rfl, rfl, rfl, rfl, by decide⟩

/-- Successful `runInference` leaves a manager in the state and derives
the geometry from its post-run stored output shapes. -/
theorem runInference_ok_geometry (engine : EngineFn) (st : ProcessorState)
    (p : ProcessorState × List Flt)
    (hok : ONNXInferenceProcessor.runInference engine st = Except.ok p) :
    ∃ mgr2, p.1.manager = some mgr2 ∧
      p.1.outputWidth =
        (deriveOutputGeometry st.width st.height mgr2.outputDims).width ∧
      p.1.outputHeight =
        (deriveOutputGeometry st.width st.height mgr2.outputDims).height ∧
      p.1.outputChannels =
        (deriveOutputGeometry st.width st.height mgr2.outputDims).channels := by
  unfold ONNXInferenceProcessor.runInference at hok
  rcases hmgr : st.manager with _ | mgr <;> rw [hmgr] at hok <;> dsimp only at hok
  · cases hok
  · by_cases hl : mgr.modelLoaded = false
    · rw [if_pos hl] at hok; cases hok
    · rw [if_neg hl] at hok
      rcases hcol : collectValidTensors st.inputTensors with e | valids <;>
        rw [hcol] at hok <;> dsimp only at hok
      · cases hok
      · by_cases hemp : valids.isEmpty = true
        · rw [if_pos hemp] at hok; cases hok
        · rw [if_neg hemp] at hok
          rcases hrun : dispatchRun engine mgr valids with e | pr <;>
            rw [hrun] at hok <;> dsimp only at hok
          · cases hok
          · rcases pr with ⟨mgr2, outData⟩
            cases hok
            exact ⟨mgr2, rfl, rfl, rfl, rfl⟩

/-- C2 amended: after any successful `runInference`, if the post-run
stored first output shape has rank 0 or 1 (or no output shape is
stored), the derived geometry is set to the defaults `(input width,
input height, 1)` — not left at its previous value; and a shape of rank
5 or more is treated like rank 4 (NCHW: entries 1, 2, 3 as channels,
height, width). -/
theorem runInference_geometry_amended (engine : EngineFn)
    (st : ProcessorState) (p : ProcessorState × List Flt)
    (hok : ONNXInferenceProcessor.runInference engine st = Except.ok p)
    (mgr2 : ManagerState) (hm : p.1.manager = some mgr2) :
    ((mgr2.outputDims.getD 0 []).length ≤ 1 →
      (p.1.outputWidth, p.1.outputHeight, p.1.outputChannels) =
        (st.width, st.height, 1)) ∧
    (4 ≤ (mgr2.outputDims.getD 0 []).length →
      (p.1.outputWidth, p.1.outputHeight, p.1.outputChannels) =
        ((mgr2.outputDims.getD 0 []).getD 3 0,
         (mgr2.outputDims.getD 0 []).getD 2 0,
         (mgr2.outputDims.getD 0 []).getD 1 0)) := by
  rcases runInference_ok_geometry engine st p hok with ⟨mgr2x, hmx, hw, hh, hc⟩
  rw [hm] at hmx
  injection hmx with hmx2
  subst hmx2
  constructor
  · intro hrank
    rw [hw, hh, hc]
    unfold deriveOutputGeometry
    rcases hd : mgr2.outputDims with _ | ⟨d0, rest⟩
    · rfl
    · rw [hd] at hrank
      simp only [List.getD_cons_zero] at hrank
      dsimp only
      rw [if_neg (by omega), if_neg (by omega), if_neg (by omega)]
  · intro hrank
    rw [hw, hh, hc]
    unfold deriveOutputGeometry
    rcases hd : mgr2.outputDims with _ | ⟨d0, rest⟩
    · rw [hd] at hrank
      simp at hrank
    · rw [hd] at hrank
      simp only [List.getD_cons_zero] at hrank
      dsimp only
      rw [if_pos hrank]
      simp [hd]

/-- Witness for C2's amended theorem at the concrete C2 run. -/
theorem runInference_geometry_amended_witness :
    (ONNXInferenceProcessor.runInference engineC2 stC2 =
        Except.ok (stC2after, outDataC2) ∧
      (stC2after, outDataC2).1.manager = some mgrC2after) ∧
    (((mgrC2after.outputDims.getD 0 []).length ≤ 1 →
      ((stC2after, outDataC2).1.outputWidth, (stC2after, outDataC2).1.outputHeight,
        (stC2after, outDataC2).1.outputChannels) =
        (stC2.width, stC2.height, 1)) ∧
    (4 ≤ (mgrC2after.outputDims.getD 0 []).length →
      ((stC2after, outDataC2).1.outputWidth, (stC2after, outDataC2).1.outputHeight,
        (stC2after, outDataC2).1.outputChannels) =
        ((mgrC2after.outputDims.getD 0 []).getD 3 0,
         (mgrC2after.outputDims.getD 0 []).getD 2 0,
         (mgrC2after.outputDims.getD 0 []).getD 1 0))) :=
  ⟨⟨rfl, rfl⟩, runInference_geometry_amended engineC2 stC2 (stC2after, outDataC2)
    rfl mgrC2after rfl⟩

/-- C6: in `runInferenceMultiInput` (here, its guard-and-binding stage,
the part of the function that decides names and argument validity), when
binding succeeds each supplied input `i` is bound to the declared name
exactly equal to the supplied name when such a declared name exists, and
otherwise — including when the supplied name is empty — to the i-th
declared name; and the call fails with `InvalidArgumentError` whenever
the number of supplied buffers differs from the number of supplied
shapes, or more names are supplied than the model declares. -/
theorem runInferenceMultiInput_binding (mgr : ManagerState)
    (bufs : List (List Flt)) (shapes : List (List Int))
    (names : List String) (hl : mgr.modelLoaded = true) :
    (∀ bound, multiInputBindNames mgr bufs shapes names = Except.ok bound →
      bound.length = names.length ∧
      ∀ (i : ℕ) (s : String), names[i]? = some s →
        ((s ≠ "" ∧ s ∈ mgr.inputNames) → bound[i]? = some s) ∧
        ((s = "" ∨ s ∉ mgr.inputNames) → bound[i]? = mgr.inputNames[i]?)) ∧
    (bufs.length ≠ shapes.length →
      ∃ m, multiInputBindNames mgr bufs shapes names =
        Except.error (Err.invalidArgumentError m)) ∧
    (mgr.inputNames.length < names.length →
      ∃ m, multiInputBindNames mgr bufs shapes names =
        Except.error (Err.invalidArgumentError m)) := by
  refine ⟨?_, ?_, ?_⟩
  · intro bound hok
    unfold multiInputBindNames at hok
    rw [if_neg (by simp [hl])] at hok
    by_cases hc1 : (bufs.isEmpty = true ∨ bufs.length ≠ shapes.length)
    · rw [if_pos hc1] at hok; cases hok
    · rw [if_neg hc1] at hok
      by_cases hc2 : mgr.inputNames.length < names.length
      · rw [if_pos hc2] at hok; cases hok
      · rw [if_neg hc2] at hok
        cases hok
        have hle : names.length ≤ mgr.inputNames.length := not_lt.mp hc2
        refine ⟨by simp, ?_⟩
        intro i s hs
        have hi : i < names.length := by
          rcases List.getElem?_eq_some.mp hs with ⟨hlt, _⟩; exact hlt
        have hgetD : names.getD i "" = s := by
          rw [List.getD_eq_getElem?_getD, hs]; rfl
        have hbound : ((List.range names.length).map
            (fun j => resolveInputName mgr.inputNames (names.getD j "") j))[i]? =
            some (resolveInputName mgr.inputNames s i) := by
          rw [List.getElem?_map, List.getElem?_range hi]
          simp only [Option.map_some']
          rw [hgetD]
        constructor
        · intro hmatch
          rw [hbound]
          unfold resolveInputName
          rw [if_pos hmatch.1]
          rcases hfind : mgr.inputNames.find? (fun n => n == s) with _ | a
          · exfalso
            have := List.find?_eq_none.mp hfind s hmatch.2
            simp at this
          · have ha : a = s := by simpa using List.find?_some hfind
            rw [ha]
        · intro hnomatch
          have hidecl : i < mgr.inputNames.length := lt_of_lt_of_le hi hle
          have hdecl : mgr.inputNames[i]? =
              some (mgr.inputNames.getD i "") := by
            rcases hx : mgr.inputNames[i]? with _ | x
            · exfalso
              have := List.getElem?_eq_none_iff.mp hx
              omega
            · rw [List.getD_eq_getElem?_getD, hx]; rfl
          rw [hbound, hdecl]
          unfold resolveInputName
          rcases hnomatch with he | hnm
          · rw [if_neg (by simp [he])]
          · by_cases he : s = ""
            · rw [if_neg (by simp [he])]
            · rw [if_pos he]
              rcases hfind : mgr.inputNames.find? (fun n => n == s) with _ | a
              · rfl
              · exfalso
                have hmem := List.mem_of_find?_eq_some hfind
                have ha : a = s := by simpa using List.find?_some hfind
                rw [ha] at hmem
                exact hnm hmem
  · intro hne
    refine ⟨"Mismatch between input tensors and shapes", ?_⟩
    unfold multiInputBindNames
    rw [if_neg (by simp [hl]), if_pos (Or.inr hne)]
  · intro hlt
    unfold multiInputBindNames
    rw [if_neg (by simp [hl])]
    by_cases hc1 : (bufs.isEmpty = true ∨ bufs.length ≠ shapes.length)
    · exact ⟨"Mismatch between input tensors and shapes", by rw [if_pos hc1]⟩
    · exact ⟨"Too many inputs provided for the model",
        by rw [if_neg hc1, if_pos hlt]⟩

/-- Sanity check for the C6 scenario: supplied names `["", "aux"]`
against declared `["img", "aux"]` bind to `["img", "aux"]`. -/
theorem multiInputBindNames_scenario :
    multiInputBindNames mgrC6 [[Flt.fin 1], [Flt.fin 2]] [[1], [1]]
      ["", "aux"] = Except.ok ["img", "aux"] := rfl

/-- Witness for C6 at the scenario inputs. -/
theorem runInferenceMultiInput_binding_witness :
    (mgrC6.modelLoaded = true) ∧
    ((∀ bound, multiInputBindNames mgrC6 [[Flt.fin 1], [Flt.fin 2]] [[1], [1]]
        ["", "aux"] = Except.ok bound →
      bound.length = (["", "aux"] : List String).length ∧
      ∀ (i : ℕ) (s : String), (["", "aux"] : List String)[i]? = some s →
        ((s ≠ "" ∧ s ∈ mgrC6.inputNames) → bound[i]? = some s) ∧
        ((s = "" ∨ s ∉ mgrC6.inputNames) → bound[i]? = mgrC6.inputNames[i]?)) ∧
    ((([[Flt.fin 1], [Flt.fin 2]] : List (List Flt)).length ≠
        ([[1], [1]] : List (List Int)).length →
      ∃ m, multiInputBindNames mgrC6 [[Flt.fin 1], [Flt.fin 2]] [[1], [1]]
        ["", "aux"] = Except.error (Err.invalidArgumentError m)) ∧
    (mgrC6.inputNames.length < (["", "aux"] : List String).length →
      ∃ m, multiInputBindNames mgrC6 [[Flt.fin 1], [Flt.fin 2]] [[1], [1]]
        ["", "aux"] = Except.error (Err.invalidArgumentError m)))) :=
  ⟨rfl, runInferenceMultiInput_binding mgrC6 [[Flt.fin 1], [Flt.fin 2]]
    [[1], [1]] ["", "aux"] rfl⟩

/-- C4 counterexample: `ONNXModelManager::load` with engine metadata
reporting zero inputs succeeds (no error raised) yet leaves the handle
loaded with an empty input-name list — the bare Model Handle does not
preserve the invariant for every possible engine-reported metadata. -/
theorem managerLoad_zeroInputs_counterexample :
    (ONNXModelManager.load mgrInit (some metaNoInputs)).2 = none ∧
    (ONNXModelManager.load mgrInit (some metaNoInputs)).1.modelLoaded = true ∧
    (ONNXModelManager.load mgrInit (some metaNoInputs)).1.inputNames.length = 0 :=
  ⟨rfl, rfl, rfl⟩

/-- `opLoadModel` preserves the input-count invariant for every path and
every engine metadata. -/
theorem opLoadModel_invariant (st : ManagerState) (path : String)
    (meta : Option EngineMetadata)
    (hInv : st.modelLoaded = true → 1 ≤ st.inputNames.length) :
    (opLoadModel st path meta).1.modelLoaded = true →
      1 ≤ (opLoadModel st path meta).1.inputNames.length := by
  unfold opLoadModel
  by_cases hp : path = ""
  · rw [if_pos hp]; exact hInv
  · rw [if_neg hp]
    rcases hmeta : meta with _ | m
    · intro h
      exfalso
      simp [ONNXModelManager.load] at h
    · by_cases hz : m.inputNames.length = 0
      · intro h
        exfalso
        simp [ONNXModelManager.load, mgrUnload, hz] at h
      · intro _
        simp [ONNXModelManager.load, hz]
        omega

/-- C4 amended: the invariant "load state true implies at least one
declared input" holds in every state reachable through the operator's
manager operations — `ONNXRuntimeOp::loadModel` (which unloads a loaded
model whose engine metadata reports zero inputs and raises
`ModelLoadError`), `unload`, and the run paths' output-shape updates —
for every possible engine-reported metadata; it is not enforced by the
bare `ONNXModelManager::load` (see the counterexample). -/
theorem opStep_inputCount_invariant (st st2 : ManagerState)
    (hInv : st.modelLoaded = true → 1 ≤ st.inputNames.length)
    (hsteps : Relation.ReflTransGen OpStep st st2) :
    st2.modelLoaded = true → 1 ≤ st2.inputNames.length := by
  induction hsteps with
  | refl => exact hInv
  | tail hab hbc ih =>
      cases hbc with
      | loadModel path meta b => exact opLoadModel_invariant _ path meta ih
      | unload b => intro h; exact absurd h (by simp [mgrUnload])
      | setOutputShape shape b hload => exact fun h => ih h

/-- Witness for C4's amended theorem: loading a one-input model from the
initial state through `opLoadModel`. -/
theorem opStep_inputCount_invariant_witness :
    (mgrInit.modelLoaded = true → 1 ≤ mgrInit.inputNames.length) ∧
    ((opLoadModel mgrInit "model.onnx" (some metaOneInput)).1.modelLoaded = true →
      1 ≤ (opLoadModel mgrInit "model.onnx" (some metaOneInput)).1.inputNames.length) :=
  ⟨by decide,
   opStep_inputCount_invariant mgrInit _ (by decide)
    (Relation.ReflTransGen.single
      (OpStep.loadModel "model.onnx" (some metaOneInput) mgrInit))⟩

/-- `getD` after `set` at another index. -/
theorem getD_set_ne_flt (l : List Flt) (i j : ℕ) (a d : Flt) (hij : i ≠ j) :
    (l.set i a).getD j d = l.getD j d := by
  rw [List.getD_eq_getElem?_getD, List.getD_eq_getElem?_getD,
    List.getElem?_set_ne hij]

/-- `getD` after `set` at the same (in-range) index. -/
theorem getD_set_self_flt (l : List Flt) (i : ℕ) (a d : Flt)
    (h : i < l.length) : (l.set i a).getD i d = a := by
  rw [List.getD_eq_getElem?_getD, List.getElem?_set_eq_of_lt _ h]
  rfl

/-- Unfolding one iteration of `setRange`. -/
theorem setRange_succ (t : List Flt) (base n : ℕ) (g : ℕ → Flt) :
    setRange t base (n + 1) g =
      (setRange t base n g).set (base + n) (g n) := by
  unfold setRange
  rw [List.range_succ, List.foldl_append]
  rfl

/-- `setRange` preserves the buffer length. -/
theorem setRange_length (t : List Flt) (base n : ℕ) (g : ℕ → Flt) :
    (setRange t base n g).length = t.length := by
  induction n with
  | zero => rfl
  | succ m ih => rw [setRange_succ, List.length_set, ih]

/-- `setRange` does not touch indices outside `[base, base + n)`. -/
theorem setRange_getD_outside (t : List Flt) (base n : ℕ) (g : ℕ → Flt)
    (i : ℕ) (d : Flt) :
    i < base ∨ base + n ≤ i →
      (setRange t base n g).getD i d = t.getD i d := by
  induction n with
  | zero => intro _; rfl
  | succ m ih =>
      intro h
      rw [setRange_succ, getD_set_ne_flt _ _ _ _ _ (by omega)]
      exact ih (by omega)

/-- Inside its range, `setRange` writes `g j` (when the write lands in
the buffer). -/
theorem setRange_getD_inside (t : List Flt) (base n : ℕ) (g : ℕ → Flt)
    (d : Flt) :
    ∀ j, j < n → base + j < t.length →
      (setRange t base n g).getD (base + j) d = g j := by
  induction n with
  | zero => intro j hj _; omega
  | succ m ih =>
      intro j hj hlen
      rw [setRange_succ]
      by_cases hjm : j = m
      · subst hjm
        exact getD_set_self_flt _ _ _ _ (by rw [setRange_length]; omega)
      · rw [getD_set_ne_flt _ _ _ _ _ (by omega)]
        exact ih j (by omega) hlen

/-- A fold whose every step leaves index `i` unchanged leaves it
unchanged overall. -/
theorem foldl_getD_untouched (step : List Flt → ℕ → List Flt)
    (L : List ℕ) (i : ℕ) (d : Flt)
    (h : ∀ u k, k ∈ L → (step u k).getD i d = u.getD i d) :
    ∀ t, (L.foldl step t).getD i d = t.getD i d := by
  induction L with
  | nil => intro t; rfl
  | cons a L2 ih =>
      intro t
      rw [List.foldl_cons,
        ih (fun u k hk => h u k (List.mem_cons_of_mem _ hk))]
      exact h t a (by simp)

/-- A fold of length-preserving steps preserves the length. -/
theorem foldl_length (step : List Flt → ℕ → List Flt) (L : List ℕ)
    (h : ∀ u k, (step u k).length = u.length) :
    ∀ t, (L.foldl step t).length = t.length := by
  induction L with
  | nil => intro t; rfl
  | cons a L2 ih =>
      intro t
      rw [List.foldl_cons, ih]
      exact h t a

/-- In a fold over `range n`, if every step after step `c` leaves index
`i` unchanged, the final value at `i` is the value right after step `c`. -/
theorem foldl_range_getD_last (step : List Flt → ℕ → List Flt)
    (i : ℕ) (d : Flt) (c : ℕ)
    (h : ∀ u k, c < k → (step u k).getD i d = u.getD i d) :
    ∀ n, c < n → ∀ t,
      ((List.range n).foldl step t).getD i d =
        (step ((List.range c).foldl step t) c).getD i d := by
  intro n
  induction n with
  | zero => omega
  | succ m ih =>
      intro hc t
      rw [List.range_succ, List.foldl_append]
      by_cases hcm : c = m
      · subst hcm
        rfl
      · rw [List.foldl_cons, List.foldl_nil,
          h ((List.range m).foldl step t) m (by omega)]
        exact ih (by omega) t

/-- `copyRowStep` preserves the buffer length. -/
theorem copyRowStep_length (tile : Tile) (H W c : ℕ) (t : List Flt)
    (h : ℕ) : (copyRowStep tile H W c t h).length = t.length := by
  unfold copyRowStep
  cases tile.rows c ((h : Int) + tile.yOffset) with
  | none => rfl
  | some srcRow => exact setRange_length _ _ _ _

/-- `copyRowStep` at plane row `k` does not touch indices outside the
row's range. -/
theorem copyRowStep_getD_outside (tile : Tile) (H W c : ℕ) (t : List Flt)
    (k i : ℕ) (d : Flt)
    (hout : i < c * H * W + k * W ∨ c * H * W + k * W + W ≤ i) :
    (copyRowStep tile H W c t k).getD i d = t.getD i d := by
  unfold copyRowStep
  cases tile.rows c ((k : Int) + tile.yOffset) with
  | none => rfl
  | some srcRow => exact setRange_getD_outside _ _ _ _ _ _ hout

/-- `processChannel` preserves the buffer length. -/
theorem processChannel_length (tile : Tile) (H W : ℕ) (t : List Flt)
    (c : ℕ) : (processChannel tile H W t c).length = t.length := by
  unfold processChannel
  split_ifs with h4 habs
  · rfl
  · exact setRange_length _ _ _ _
  · exact foldl_length _ _ (fun u k => copyRowStep_length tile H W c u k) t

/-- `processChannel c` does not touch indices outside plane `c` (and
touches nothing at all for `c >= 4`). -/
theorem processChannel_getD_outside (tile : Tile) (H W : ℕ)
    (t : List Flt) (c i : ℕ) (d : Flt)
    (hout : 4 ≤ c ∨ i < c * H * W ∨ (c + 1) * H * W ≤ i) :
    (processChannel tile H W t c).getD i d = t.getD i d := by
  have hplane : (c + 1) * H * W = c * H * W + H * W := by ring
  unfold processChannel
  split_ifs with h4 habs
  · rfl
  · apply setRange_getD_outside
    rcases hout with hc | hlo | hhi
    · omega
    · exact Or.inl hlo
    · exact Or.inr (by omega)
  · apply foldl_getD_untouched
    intro u k hk
    have hkH : k < H := List.mem_range.mp hk
    apply copyRowStep_getD_outside
    rcases hout with hc | hlo | hhi
    · omega
    · exact Or.inl (by omega)
    · have h1 : (k + 1) * W ≤ H * W := Nat.mul_le_mul_right _ (by omega)
      have h2 : (k + 1) * W = k * W + W := by ring
      exact Or.inr (by omega)

/-- An absent semantic channel's plane is zero-filled by
`processChannel`. -/
theorem processChannel_getD_absent (tile : Tile) (H W : ℕ) (t : List Flt)
    (c : ℕ) (d : Flt) (hc4 : c < 4) (habs : tile.chanPresent c = false)
    (j : ℕ) (hj : j < H * W) (hlen : c * H * W + j < t.length) :
    (processChannel tile H W t c).getD (c * H * W + j) d = Flt.fin 0 := by
  unfold processChannel
  rw [if_neg (by omega), if_pos habs]
  exact setRange_getD_inside t (c * H * W) (H * W) _ d j hj hlen

/-- A present semantic channel with a present source row is copied
verbatim by `processChannel`. -/
theorem processChannel_getD_present (tile : Tile) (H W : ℕ)
    (t : List Flt) (c h w : ℕ) (d : Flt) (hc4 : c < 4)
    (hpres : tile.chanPresent c = true) (hh : h < H) (hw : w < W)
    (srcRow : Int → Flt)
    (hrow : tile.rows c ((h : Int) + tile.yOffset) = some srcRow)
    (hlen : c * H * W + h * W + w < t.length) :
    (processChannel tile H W t c).getD (c * H * W + h * W + w) d =
      srcRow ((w : Int) + tile.xOffset) := by
  unfold processChannel
  rw [if_neg (by omega), if_neg (by simp [hpres])]
  have huntouched : ∀ u k, h < k →
      (copyRowStep tile H W c u k).getD (c * H * W + h * W + w) d =
        u.getD (c * H * W + h * W + w) d := by
    intro u k hk
    apply copyRowStep_getD_outside
    have h1 : (h + 1) * W ≤ k * W := Nat.mul_le_mul_right _ (by omega)
    have h2 : (h + 1) * W = h * W + W := by ring
    exact Or.inl (by omega)
  rw [foldl_range_getD_last (copyRowStep tile H W c) _ d h huntouched H hh t]
  have hfoldlen : ((List.range h).foldl (copyRowStep tile H W c) t).length =
      t.length :=
    foldl_length _ _ (fun u k => copyRowStep_length tile H W c u k) t
  have hstep : copyRowStep tile H W c
      ((List.range h).foldl (copyRowStep tile H W c) t) h =
      setRange ((List.range h).foldl (copyRowStep tile H W c) t)
        (c * H * W + h * W) W (fun w2 => srcRow ((w2 : Int) + tile.xOffset)) := by
    unfold copyRowStep
    rw [hrow]
  rw [hstep]
  exact setRange_getD_inside _ (c * H * W + h * W) W _ d w hw
    (by rw [hfoldlen]; omega)

/-- `resize` gives the buffer exactly the requested length. -/
theorem listResize_length (l : List Flt) (n : ℕ) :
    (listResize l n).length = n := by
  unfold listResize
  rw [List.length_append, List.length_take, List.length_replicate]
  omega

/-- C10: whenever `tileToNCHWTensor` returns normally (all three
dimensions positive) the output buffer's length is exactly
`1*channels*height*width` — the product of the default NCHW shape —
irrespective of the buffer's prior length or contents. -/
theorem tileToNCHWTensor_length (tile : Tile) (prior : List Flt)
    (width height channels : Int)
    (hw : 0 < width) (hh : 0 < height) (hc : 0 < channels) :
    ∃ t, Utils.tileToNCHWTensor tile prior width height channels =
      Except.ok t ∧ (t.length : Int) = 1 * channels * height * width := by
  have hok : Utils.tileToNCHWTensor tile prior width height channels =
      Except.ok ((List.range channels.toNat).foldl
        (processChannel tile height.toNat width.toNat)
        (listResize prior
          (1 * channels.toNat * height.toNat * width.toNat))) := by
    unfold Utils.tileToNCHWTensor
    rw [if_neg (by omega)]
  refine ⟨_, hok, ?_⟩
  rw [foldl_length _ _
    (fun u k => processChannel_length tile height.toNat width.toNat u k) _,
    listResize_length]
  have h1 : ((channels.toNat : Int)) = channels := Int.toNat_of_nonneg (by omega)
  have h2 : ((height.toNat : Int)) = height := Int.toNat_of_nonneg (by omega)
  have h3 : ((width.toNat : Int)) = width := Int.toNat_of_nonneg (by omega)
  push_cast
  rw [h1, h2, h3]

/-- Witness for C10 on a concrete 2x1 two-channel conversion with a
non-empty prior buffer. -/
theorem tileToNCHWTensor_length_witness :
    ((0 : Int) < 2 ∧ (0 : Int) < 1 ∧ (0 : Int) < 2) ∧
    (∃ t, Utils.tileToNCHWTensor tileW [Flt.fin 9] 2 1 2 = Except.ok t ∧
      (t.length : Int) = 1 * 2 * 1 * 2) :=
  ⟨⟨by decide, by decide, by decide⟩,
   tileToNCHWTensor_length tileW [Flt.fin 9] 2 1 2
     (by decide) (by decide) (by decide)⟩

/-- C9: for positive dimensions, `tileToNCHWTensor` succeeds and: for
every plane `c < min(channelCount, 4)`, row `h < height` and column
`w < width`, if the semantic channel is present and the source row
`h + yOffset` is non-null, the tensor element at plane `c`, row `h`,
column `w` equals the source pixel at column `w + xOffset` of that
source row; if the semantic channel is absent the whole plane `c` is
zero; and planes with index 4 and above are never written — they keep
the post-resize buffer content. -/
theorem tileToNCHWTensor_spec (tile : Tile) (prior : List Flt)
    (width height channels : Int)
    (hw : 0 < width) (hh : 0 < height) (hc : 0 < channels) :
    ∃ t, Utils.tileToNCHWTensor tile prior width height channels =
      Except.ok t ∧
      (∀ c h w : ℕ,
        c < min channels.toNat 4 → h < height.toNat → w < width.toNat →
        (∀ srcRow, tile.chanPresent c = true →
          tile.rows c ((h : Int) + tile.yOffset) = some srcRow →
          t.getD (c * height.toNat * width.toNat + h * width.toNat + w)
            Flt.nan = srcRow ((w : Int) + tile.xOffset)) ∧
        (tile.chanPresent c = false →
          t.getD (c * height.toNat * width.toNat + h * width.toNat + w)
            Flt.nan = Flt.fin 0)) ∧
      (∀ i : ℕ, 4 * height.toNat * width.toNat ≤ i →
        t.getD i Flt.nan =
          (listResize prior
            (1 * channels.toNat * height.toNat * width.toNat)).getD i
            Flt.nan) := by
  have hok : Utils.tileToNCHWTensor tile prior width height channels =
      Except.ok ((List.range channels.toNat).foldl
        (processChannel tile height.toNat width.toNat)
        (listResize prior
          (1 * channels.toNat * height.toNat * width.toNat))) := by
    unfold Utils.tileToNCHWTensor
    rw [if_neg (by omega)]
  have hbaseLen : (listResize prior
      (1 * channels.toNat * height.toNat * width.toNat)).length =
      1 * channels.toNat * height.toNat * width.toNat := listResize_length _ _
  have hfoldLen : ∀ m : ℕ, ((List.range m).foldl
      (processChannel tile height.toNat width.toNat)
      (listResize prior
        (1 * channels.toNat * height.toNat * width.toNat))).length =
      1 * channels.toNat * height.toNat * width.toNat := by
    intro m
    rw [foldl_length _ _
      (fun u k => processChannel_length tile height.toNat width.toNat u k) _,
      hbaseLen]
  refine ⟨_, hok, ?_, ?_⟩
  · intro c h w hcm hhH hwW
    have hcC : c < channels.toNat := (lt_min_iff.mp hcm).1
    have hc4 : c < 4 := (lt_min_iff.mp hcm).2
    have hrowcol : h * width.toNat + w < height.toNat * width.toNat := by
      have h1 : (h + 1) * width.toNat ≤ height.toNat * width.toNat :=
        Nat.mul_le_mul_right _ (by omega)
      have h2 : (h + 1) * width.toNat = h * width.toNat + width.toNat := by
        ring
      omega
    have hidxlt : c * height.toNat * width.toNat + h * width.toNat + w <
        1 * channels.toNat * height.toNat * width.toNat := by
      have h1 : (c + 1) * (height.toNat * width.toNat) ≤
          channels.toNat * (height.toNat * width.toNat) :=
        Nat.mul_le_mul_right _ (by omega)
      have h2 : (c + 1) * (height.toNat * width.toNat) =
          c * height.toNat * width.toNat + height.toNat * width.toNat := by
        ring
      have h3 : channels.toNat * (height.toNat * width.toNat) =
          1 * channels.toNat * height.toNat * width.toNat := by ring
      omega
    have huntouched : ∀ u k, c < k →
        (processChannel tile height.toNat width.toNat u k).getD
          (c * height.toNat * width.toNat + h * width.toNat + w) Flt.nan =
        u.getD (c * height.toNat * width.toNat + h * width.toNat + w)
          Flt.nan := by
      intro u k hk
      apply processChannel_getD_outside
      by_cases hk4 : 4 ≤ k
      · exact Or.inl hk4
      · refine Or.inr (Or.inl ?_)
        have h1 : (c + 1) * (height.toNat * width.toNat) ≤
            k * (height.toNat * width.toNat) :=
          Nat.mul_le_mul_right _ (by omega)
        have h2 : (c + 1) * (height.toNat * width.toNat) =
            c * height.toNat * width.toNat + height.toNat * width.toNat := by
          ring
        have h3 : k * (height.toNat * width.toNat) =
            k * height.toNat * width.toNat := by ring
        omega
    have hlast := foldl_range_getD_last
      (processChannel tile height.toNat width.toNat)
      (c * height.toNat * width.toNat + h * width.toNat + w) Flt.nan c
      huntouched channels.toNat hcC
      (listResize prior (1 * channels.toNat * height.toNat * width.toNat))
    refine ⟨?_, ?_⟩
    · intro srcRow hpres hrow
      rw [hlast]
      exact processChannel_getD_present tile height.toNat width.toNat _
        c h w Flt.nan hc4 hpres hhH hwW srcRow hrow
        (by rw [hfoldLen c]; exact hidxlt)
    · intro habs
      rw [hlast]
      have hidx2 : c * height.toNat * width.toNat + h * width.toNat + w =
          c * height.toNat * width.toNat + (h * width.toNat + w) := by omega
      rw [hidx2]
      exact processChannel_getD_absent tile height.toNat width.toNat _
        c Flt.nan hc4 habs (h * width.toNat + w) hrowcol
        (by rw [hfoldLen c]; omega)
  · intro i hi4
    apply foldl_getD_untouched
    intro u k hk
    apply processChannel_getD_outside
    by_cases hk4 : 4 ≤ k
    · exact Or.inl hk4
    · refine Or.inr (Or.inr ?_)
      have h1 : (k + 1) * (height.toNat * width.toNat) ≤
          4 * (height.toNat * width.toNat) := Nat.mul_le_mul_right _ (by omega)
      have h2 : (k + 1) * (height.toNat * width.toNat) =
          k * height.toNat * width.toNat + height.toNat * width.toNat := by
        ring
      have h3 : 4 * (height.toNat * width.toNat) =
          4 * height.toNat * width.toNat := by ring
      have h4 : (k + 1) * height.toNat * width.toNat =
          (k + 1) * (height.toNat * width.toNat) := by ring
      omega

/-- Witness for C9 on a concrete 2-wide, 1-high, 2-channel conversion. -/
theorem tileToNCHWTensor_spec_witness :
    ((0 : Int) < 2 ∧ (0 : Int) < 1 ∧ (0 : Int) < 2) ∧
    (∃ t, Utils.tileToNCHWTensor tileW [] 2 1 2 = Except.ok t ∧
      (∀ c h w : ℕ,
        c < min (2 : Int).toNat 4 → h < (1 : Int).toNat → w < (2 : Int).toNat →
        (∀ srcRow, tileW.chanPresent c = true →
          tileW.rows c ((h : Int) + tileW.yOffset) = some srcRow →
          t.getD (c * (1 : Int).toNat * (2 : Int).toNat + h * (2 : Int).toNat + w)
            Flt.nan = srcRow ((w : Int) + tileW.xOffset)) ∧
        (tileW.chanPresent c = false →
          t.getD (c * (1 : Int).toNat * (2 : Int).toNat + h * (2 : Int).toNat + w)
            Flt.nan = Flt.fin 0)) ∧
      (∀ i : ℕ, 4 * (1 : Int).toNat * (2 : Int).toNat ≤ i →
        t.getD i Flt.nan =
          (listResize []
            (1 * (2 : Int).toNat * (1 : Int).toNat * (2 : Int).toNat)).getD i
            Flt.nan)) :=
  ⟨⟨by decide, by decide, by decide⟩,
   tileToNCHWTensor_spec tileW [] 2 1 2 (by decide) (by decide) (by decide)⟩
